import Mathlib

/-!
Verification of the OPAL interpreter (a small Lisp-family language).

The development shallowly embeds the interpreter's data model and the
operations of `datatypes.py`, `keywords.py` and `parser.py`.  The files
`environment.py` and `evaluate.py` of the repository are not available, so
the `Environment` operations and the generic evaluator are modelled from the
specification: each such definition carries a doc comment starting with
`Modelled from the spec:`.  Recursive calls into the generic evaluator are
abstracted as an explicit function parameter (`EvalFn`).
-/

/-- Kind of an OPAL function, mirroring `Function.type` in `datatypes.py`
(the values are the strings `function`, `method`, `lambda`, `self`). -/
inductive FKind where
  | function
  | method
  | lambda
  | self
deriving DecidableEq, Repr

/-- Runtime values of the interpreter.  An OPAL value is a Python value:
`None`, an `int`, a `float` (kept as its literal text, which determines it
uniquely and is never computed with in the claims), a `bool`, a `str`
(symbols and string tokens), a nested `list`, a `Function` object
(identifier, kind, display name, parameter names, body expression), or the
`ValueError` class object that `keywords.globals` can return.  Parsed
expressions are values as well, exactly as in the source. -/
inductive Val where
  | none
  | int (n : Int)
  | float (lit : String)
  | bool (b : Bool)
  | str (s : String)
  | list (l : List Val)
  | func (id : String) (kind : FKind) (name : String) (params : List String) (body : Val)
  | inst (id : String) (name : String)
  | excClass

/-- Failure outcomes.  The first five constructors are the error taxonomy of
the specification (§7); each is tagged with the data the corresponding raise
site in the source puts into its message.  `arityErr` is the
`TypeError("<name> takes <n> arguments but <m> were given")` raised at
`datatypes.py:84` (the spec's `ArityError`); `typeErr` is the
`TypeError("unsupported argument for '<acc>': ...")` raised by
`keywords.head`/`keywords.tail`.  `hostIndexErr` is a raw Python
`IndexError`, which belongs to none of the taxonomy kinds; `hostTypeErr`
is a raw Python `TypeError` raised outside the taxonomy's defined trigger
sites (a constructor called with too many arguments, a non-subscriptable
value indexed, an unhashable dict key). -/
inductive Err where
  | synErr (msg : String)
  | nameErr (name : String)
  | arityErr (who : String) (expected actual : Nat)
  | typeErr (accessor : String) (arg : Val)
  | ioErr (msg : String)
  | hostIndexErr
  | hostTypeErr (msg : String)

/-- Whether an error kind belongs to the taxonomy of spec §7
(`SyntaxError`, `NameError`, `ArityError`, `TypeError`, `IOError`). -/
def Err.inTaxonomy : Err → Bool
  | .synErr _ => true
  | .nameErr _ => true
  | .arityErr _ _ _ => true
  | .typeErr _ _ => true
  | .ioErr _ => true
  | .hostIndexErr => false
  | .hostTypeErr _ => false

/-- Python truthiness of a value (`bool(x)`): `None`, `False`, zero, the
empty string, and the empty list are falsy; a float literal is falsy exactly
when all of its digits are `0`; every other value is truthy. -/
def pyTruthy : Val → Bool
  | .none => false
  | .int n => n != 0
  | .float lit => !(lit.toList.all fun c => c = '-' || c = '.' || c = '0')
  | .bool b => b
  | .str s => s != ""
  | .list [] => false
  | .list (_ :: _) => true
  | .func _ _ _ _ _ => true
  | .inst _ _ => true
  | .excClass => true

/-- Whether a value is a Python sequence (a list or a string): exactly the
values on which indexing and slicing are defined. -/
def Val.isSeq : Val → Bool
  | .list _ => true
  | .str _ => true
  | _ => false

/-- Translation of `keywords.head` (`keywords.py:132`): `x[0]` of a list or
string, with any host failure converted to the `TypeError` naming `car`. -/
def head : Val → Except Err Val
  | .list (h :: _) => .ok h
  | .list [] => .error (.typeErr "car" (.list []))
  | .str s => if s = "" then .error (.typeErr "car" (.str s)) else .ok (.str (s.take 1))
  | v => .error (.typeErr "car" v)

/-- Translation of `keywords.tail` (`keywords.py:138`): `x[1:]` of a list or
string, with any host failure converted to the `TypeError` naming `cdr`. -/
def tail : Val → Except Err Val
  | .list l => .ok (.list l.tail)
  | .str s => .ok (.str (s.drop 1))
  | v => .error (.typeErr "cdr" v)

/-- Translation of `keywords.evcxr` (`keywords.py:144`): tail-recursive
evaluation of a `c[ad]+r` accessor.  `x` is the letter sequence between the
`c` and the `r`; an empty sequence returns the accumulated output, a
trailing `a` peels one head, a trailing `d` peels one tail (so the letters
are consumed right to left), and any other trailing character falls off the
`if`/`elif` chain and returns Python `None`. -/
def evcxr : List Char → Val → Except Err Val
  | [], output => .ok output
  | c :: cs, output =>
    if (c :: cs).getLast? = some 'a' then
      head output >>= evcxr ((c :: cs).dropLast)
    else if (c :: cs).getLast? = some 'd' then
      tail output >>= evcxr ((c :: cs).dropLast)
    else .ok Val.none
termination_by x _ => x.length
decreasing_by
  all_goals simp [List.length_dropLast]

theorem evcxr_cons (c : Char) (cs : List Char) (v : Val) :
    evcxr (c :: cs) v =
      if (c :: cs).getLast? = some 'a' then head v >>= evcxr ((c :: cs).dropLast)
      else if (c :: cs).getLast? = some 'd' then tail v >>= evcxr ((c :: cs).dropLast)
      else .ok Val.none := by
  simp only [evcxr]

theorem evcxr_nil (v : Val) : evcxr [] v = .ok v := by
  simp only [evcxr]

theorem evcxr_peel_a (s : List Char) (v : Val) :
    evcxr (s ++ ['a']) v = head v >>= evcxr s := by
  cases s with
  | nil => simp [evcxr_cons]
  | cons c cs =>
    have h1 : (c :: (cs ++ ['a'])).getLast? = some 'a' := by
      rw [← List.cons_append, List.getLast?_concat]
    have h2 : (c :: (cs ++ ['a'])).dropLast = c :: cs := by
      rw [← List.cons_append, List.dropLast_concat]
    rw [List.cons_append, evcxr_cons, h1, h2]
    simp

theorem evcxr_peel_d (s : List Char) (v : Val) :
    evcxr (s ++ ['d']) v = tail v >>= evcxr s := by
  cases s with
  | nil => simp [evcxr_cons]
  | cons c cs =>
    have h1 : (c :: (cs ++ ['d'])).getLast? = some 'd' := by
      rw [← List.cons_append, List.getLast?_concat]
    have h2 : (c :: (cs ++ ['d'])).dropLast = c :: cs := by
      rw [← List.cons_append, List.dropLast_concat]
    rw [List.cons_append, evcxr_cons, h1, h2]
    simp

theorem head_of_not_seq (v : Val) (h : v.isSeq = false) :
    head v = .error (.typeErr "car" v) := by
  cases v <;> simp_all [head, Val.isSeq]

theorem tail_of_not_seq (v : Val) (h : v.isSeq = false) :
    tail v = .error (.typeErr "cdr" v) := by
  cases v <;> simp_all [tail, Val.isSeq]

/-- C7: a `c[ad]+r` accessor peels one head per letter `a` and one tail per
letter `d`, processing the letter sequence right to left (innermost
accessor first); peeling a value that is not a sequence fails with the
`TypeError` naming the offending accessor (`car` or `cdr`); and `evcxr`
applied to the letters `ad` and the list `(1 2 3)` returns `2`. -/
theorem evcxr_cxr_correct :
    (∀ v : Val, evcxr [] v = .ok v) ∧
    (∀ (s : List Char) (v : Val), evcxr (s ++ ['a']) v = head v >>= evcxr s) ∧
    (∀ (s : List Char) (v : Val), evcxr (s ++ ['d']) v = tail v >>= evcxr s) ∧
    (∀ (s : List Char) (v : Val), v.isSeq = false →
      evcxr (s ++ ['a']) v = .error (.typeErr "car" v) ∧
      evcxr (s ++ ['d']) v = .error (.typeErr "cdr" v)) ∧
    evcxr ['a', 'd'] (Val.list [Val.int 1, Val.int 2, Val.int 3]) = .ok (Val.int 2) := by
  refine ⟨evcxr_nil, evcxr_peel_a, evcxr_peel_d, ?_, ?_⟩
  · intro s v h
    constructor
    · rw [evcxr_peel_a, head_of_not_seq v h]
      rfl
    · rw [evcxr_peel_d, tail_of_not_seq v h]
      rfl
  · calc evcxr ['a', 'd'] (Val.list [Val.int 1, Val.int 2, Val.int 3])
        = tail (Val.list [Val.int 1, Val.int 2, Val.int 3]) >>= evcxr ['a'] :=
          evcxr_peel_d ['a'] _
      _ = evcxr ['a'] (Val.list [Val.int 2, Val.int 3]) := by rfl
      _ = head (Val.list [Val.int 2, Val.int 3]) >>= evcxr [] := evcxr_peel_a [] _
      _ = evcxr [] (Val.int 2) := by rfl
      _ = .ok (Val.int 2) := evcxr_nil _

/-- Witness for C7: the hypothesis-bearing conjunct applied at the
non-sequence value `7` with accessor letters `da` (i.e. `cdar`). -/
theorem evcxr_cxr_correct_witness :
    (Val.int 7).isSeq = false ∧
    evcxr (['d'] ++ ['a']) (Val.int 7) = .error (.typeErr "car" (Val.int 7)) := by
  refine ⟨rfl, ?_⟩
  exact (evcxr_cxr_correct.2.2.2.1 ['d'] (Val.int 7) rfl).1

/-- Intermediate expression form fed to `parser.preprocess`: the nested
lists of raw token strings produced by `lst_to_Python`. -/
inductive SExpr where
  | atom (s : String)
  | list (es : List SExpr)

/-- Translation of the regular expression of `keywords.isnumber`
(`keywords.py:43`): an optional minus sign, any digits, an optional dot,
then at least one digit. -/
def isnumberChars (l : List Char) : Bool :=
  let body := match l with
    | '-' :: rest => rest
    | other => other
  match body.span Char.isDigit with
  | (pre, []) => !pre.isEmpty
  | (_, '.' :: rest2) => !rest2.isEmpty && rest2.all Char.isDigit
  | _ => false

/-- Translation of `parser.retype` (`parser.py:65`): numeric strings become
`float` (when they contain a dot) or `int` values, `#t`/`#f` become
booleans, and everything else is returned unchanged.  The `getD 0` default
is unreachable: a dot-free string accepted by `isnumberChars` is a valid
integer literal. -/
def retype (x : String) : Val :=
  if isnumberChars x.toList then
    if x.toList.contains '.' then .float x
    else .int ((x.toInt?).getD 0)
  else if x = "#t" then .bool true
  else if x = "#f" then .bool false
  else .str x

/-- The single-quote token produced by the tokenizer
(`OPAL_to_list` splits `\x27` into its own token). -/
def quoteTok : String := "\x27"

mutual

/-- Translation of `parser.preprocess` (`parser.py:95`) applied to one
expression: a non-list input is returned unchanged (`parser.py:112`), and a
list is processed elementwise by `preprocessL`. -/
def preprocess : SExpr → Option Val
  | .atom a => some (.str a)
  | .list l => (preprocessL l).map Val.list

/-- Translation of `parser.preprocess` on the element list of an
expression: a list head recurses into the head and the rest, a quote token
consumes the following element `x` and emits `(quote preprocess(x))`, and
any other atom is retyped.  `none` models the host `IndexError` raised at
`parser.py:106` when a quote token has no following element. -/
def preprocessL : List SExpr → Option (List Val)
  | [] => some []
  | .list l :: rest =>
    match preprocess (.list l), preprocessL rest with
    | some h, some t => some (h :: t)
    | _, _ => Option.none
  | .atom a :: rest =>
    if a = quoteTok then
      match rest with
      | [] => Option.none
      | x :: rest2 =>
        match preprocess x, preprocessL rest2 with
        | some qx, some t => some (.list [.str "quote", qx] :: t)
        | _, _ => Option.none
    else
      match preprocessL rest with
      | some t => some (retype a :: t)
      | _ => Option.none

end

/-- Modelled from the spec: `evaluate.py` is not under `src/`; spec §4.5
says the special form `(quote x)` returns `x` unevaluated, so its handler
returns its raw argument and never invokes the evaluator. -/
def quoteForm (x : Val) : Val := x

/-- C8: the preprocessor desugars every quote abbreviation — a quote token
followed by an expression `x` — into the full form `(quote x)` with the
preprocessing applied to `x` (so abbreviations inside a list argument are
expanded recursively); applying the abbreviation to a list is
interchangeable with writing the full `(quote ...)` form; the `quote`
special form returns its argument unevaluated; and concretely the inputs
for `'(a b c)` and `(quote (a b c))` both preprocess to the literal
sequence `(quote (a b c))`. -/
theorem preprocess_quote_desugar :
    (∀ (x : SExpr) (rest : List SExpr) (v : Val) (vs : List Val),
      preprocess x = some v → preprocessL rest = some vs →
      preprocessL (.atom quoteTok :: x :: rest) = some (.list [.str "quote", v] :: vs)) ∧
    (∀ (l : List SExpr) (rest : List SExpr),
      preprocessL (.atom quoteTok :: .list l :: rest)
        = preprocessL (.list [.atom "quote", .list l] :: rest)) ∧
    (∀ v : Val, quoteForm v = v) ∧
    preprocessL [.atom quoteTok, .list [.atom "a", .atom "b", .atom "c"]]
      = preprocessL [.list [.atom "quote", .list [.atom "a", .atom "b", .atom "c"]]] ∧
    preprocessL [.atom quoteTok, .list [.atom "a", .atom "b", .atom "c"]]
      = some [.list [.str "quote", .list [.str "a", .str "b", .str "c"]]] := by
  refine ⟨?_, ?_, fun v => rfl, by rfl, by rfl⟩
  · intro x rest v vs hx hrest
    cases x with
    | atom a => simp [preprocessL, hx, hrest]
    | list l => simp [preprocessL, hx, hrest]
  · intro l rest
    have hq : retype "quote" = .str "quote" := by rfl
    have hne : ("quote" : String) ≠ quoteTok := by decide
    cases hl : preprocessL l with
    | none => simp [preprocessL, preprocess, hl, hne]
    | some h =>
      cases hr : preprocessL rest with
      | none => simp [preprocessL, preprocess, hl, hr, hne, hq]
      | some t => simp [preprocessL, preprocess, hl, hr, hne, hq]

/-- Witness for C8: the desugaring conjunct applied to the concrete
abbreviation input for `'(a b)`. -/
theorem preprocess_quote_desugar_witness :
    preprocessL [SExpr.atom quoteTok, SExpr.list [SExpr.atom "a", SExpr.atom "b"]]
      = some [Val.list [Val.str "quote", Val.list [Val.str "a", Val.str "b"]]] := by
  exact preprocess_quote_desugar.1 (SExpr.list [SExpr.atom "a", SExpr.atom "b"]) []
    (Val.list [Val.str "a", Val.str "b"]) [] (by rfl) (by rfl)

/-- Modelled from the spec: `environment.py` is not under `src/`.  Per §3 an
Environment is an ordered sequence of (name, value) bindings where later
bindings shadow earlier ones on lookup while both remain present; the most
recent binding is the last element of the list. -/
structure Environment where
  env : List (String × Val)

/-- Modelled from the spec: `extend(childEnv)` appends another
environment's bindings onto this one as a new scope (§3). -/
def Environment.extend (e child : Environment) : Environment :=
  ⟨e.env ++ child.env⟩

/-- Modelled from the spec: `end_scope(n)` removes the last `n` bindings (§3). -/
def Environment.endScope (n : Nat) (e : Environment) : Environment :=
  ⟨e.env.take (e.env.length - n)⟩

/-- Modelled from the spec: `define(name, ...)` adds a binding; under the
spec's non-destructive shadowing (§3) the new binding is appended and
shadows any earlier binding of the same name. -/
def Environment.define (name : String) (v : Val) (e : Environment) : Environment :=
  ⟨e.env ++ [(name, v)]⟩

/-- Modelled from the spec: `delete(name)` removes the most recent binding
with that name (§3). -/
def Environment.delete (name : String) (e : Environment) : Environment :=
  ⟨(e.env.reverse.eraseP (fun b => b.1 == name)).reverse⟩

/-- Modelled from the spec: `lookup(name)` returns the most recent binding
with the given name; absence (a `NameError` in the source) is `none`. -/
def Environment.lookup (name : String) (e : Environment) : Option Val :=
  (e.env.reverse.find? (fun b => b.1 == name)).map Prod.snd

/-- Modelled from the spec: `match_arguments(params, args)` binds each
parameter name positionally to the corresponding value, failing with the
spec's `ArityError` when the name count and value count differ (§4.1). -/
def Environment.matchArguments (params : List String) (args : List Val) (e : Environment) :
    Except Err Environment :=
  if params.length ≠ args.length then
    .error (.arityErr "match_arguments" params.length args.length)
  else .ok ⟨e.env ++ params.zip args⟩

/-- Modelled from the spec: `clone()` produces an independent copy of the
binding sequence (§3); bindings are immutable values in this embedding, so
the copy is the binding sequence itself. -/
def Environment.clone (e : Environment) : Environment := e

/-- Interpreter state: the active environment `cf.config.ENV`, the closure
registry `cf.config.CLOSURES` and the global store `cf.config.GLOBALS`. -/
structure State where
  ENV : Environment
  CLOSURES : String → Environment
  GLOBALS : String → Option Val

/-- Update one closure registry entry. -/
def State.setClosure (id : String) (e : Environment) (st : State) : State :=
  { st with CLOSURES := fun k => if k = id then e else st.CLOSURES k }

/-- Shape of the abstracted recursive evaluator `ev.evaluate`
(`evaluate.py` is not under `src/`): an expression and the current state
produce a result or a propagating error together with the state as mutated
by the evaluation. -/
abbrev EvalFn : Type := Val → State → Except Err Val × State

/-- Translation of `keywords.evlist` (`keywords.py:127`): evaluate each
element left to right; a raised error propagates at once. -/
def evlist (evalFn : EvalFn) : List Val → State → Except Err (List Val) × State
  | [], st => (.ok [], st)
  | e :: es, st =>
    match evalFn e st with
    | (.ok v, st1) =>
      match evlist evalFn es st1 with
      | (.ok vs, st2) => (.ok (v :: vs), st2)
      | (.error err, st2) => (.error err, st2)
    | (.error err, st1) => (.error err, st1)

/-- The argument normalization of `datatypes.py:80`: a `None` argument
marker means an empty argument list, anything else is evaluated
applicatively by `evlist`. -/
def evalOptArgs (evalFn : EvalFn) : Option (List Val) → State → Except Err (List Val) × State
  | Option.none, st => (.ok [], st)
  | some as, st => evlist evalFn as st

/-- An OPAL `Function` object (`datatypes.py:40`): registry identifier,
kind, display name, parameter names and body expression. -/
structure Func where
  id : String
  kind : FKind
  name : String
  parameters : List String
  body : Val

/-- The function value an OPAL `Function` object denotes. -/
def Func.val (f : Func) : Val :=
  .func f.id f.kind f.name f.parameters f.body

/-- The payload bound to `self` at `datatypes.py:63`: a reference to the
function's own parameter list and body. -/
def Func.selfRef (f : Func) : Val :=
  .list [.list (f.parameters.map Val.str), f.body]

/-- The kinds for which `datatypes.py:63` and `datatypes.py:75` bind and
delete `self` (`self.type in ('lambda', 'self')`). -/
def FKind.bindsSelf : FKind → Bool
  | .lambda => true
  | .self => true
  | _ => false

/-- Scope entry of the call protocol, translated from `Function.eval.logic`
(`datatypes.py:60`-`65`): match the evaluated arguments into the function's
closure environment, bind `self` for `lambda`/`self` kinds, and extend the
active environment with the closure environment. -/
def Func.callEnter (f : Func) (args : List Val) (st : State) : Except Err State :=
  match (st.CLOSURES f.id).matchArguments f.parameters args with
  | .error e => .error e
  | .ok cl =>
    let st1 := st.setClosure f.id cl
    let st2 :=
      if f.kind.bindsSelf then st1.setClosure f.id ((st1.CLOSURES f.id).define "self" f.selfRef)
      else st1
    .ok { st2 with ENV := st2.ENV.extend (st2.CLOSURES f.id) }

/-- The closure hand-off of `datatypes.py:71`: when the body's value is a
Function, the registry entry for the returned function's identifier is
replaced with a clone of the calling function's current closure
environment. -/
def Func.retClone (f : Func) (v : Except Err Val) (st : State) : State :=
  match v with
  | .ok (.func gid _ _ _ _) => st.setClosure gid ((st.CLOSURES f.id).clone)
  | _ => st

/-- The `finally` block of `datatypes.py:73`-`75`: roll the active
environment back by the closure environment's current binding count, then
delete the `self` binding for `lambda`/`self` kinds.  This runs on every
exit, also when the body evaluation produced an error. -/
def Func.callExit (f : Func) (st : State) : State :=
  let st1 := { st with ENV := st.ENV.endScope ((st.CLOSURES f.id).env.length) }
  if f.kind.bindsSelf then st1.setClosure f.id ((st1.CLOSURES f.id).delete "self") else st1

/-- Translation of the inner `logic` of `Function.eval`
(`datatypes.py:56`-`77`): enter the scope, evaluate the body, hand the
closure to a returned function, and unwind on every exit. -/
def Func.logic (evalFn : EvalFn) (f : Func) (args : List Val) (st : State) :
    Except Err Val × State :=
  match f.callEnter args st with
  | .error e => (.error e, st)
  | .ok stE =>
    let r := evalFn f.body stE
    (r.1, f.callExit (f.retClone r.1 r.2))

/-- Whether the clone step rebound the registry slot of the calling
function itself: the body's value is a Function carrying the caller's own
identifier. -/
def reboundOwnSlot (v : Except Err Val) (fid : String) : Bool :=
  match v with
  | .ok (.func gid _ _ _ _) => gid == fid
  | _ => false

/-- Translation of `Function.eval` (`datatypes.py:53`-`87`): evaluate the
arguments applicatively, check arity before any scope mutation, then run
the call logic under `runlocal` of the closure environment.  `runlocal` is
modelled from the spec (§4.5: forms run in a freshly extended local scope
that is torn down afterward): it records the closure environment's binding
count and rolls the environment object captured at entry back to that
count on exit.  When the clone step of `datatypes.py:71` rebound the
registry slot (the body returned a function carrying the caller's own
identifier), that teardown mutates the detached object, so the registry is
left unchanged by it. -/
def Func.eval (evalFn : EvalFn) (f : Func) (argsOpt : Option (List Val)) (st : State) :
    Except Err Val × State :=
  match evalOptArgs evalFn argsOpt st with
  | (.error e, st1) => (.error e, st1)
  | (.ok args, st1) =>
    if f.parameters.length ≠ args.length then
      (.error (.arityErr f.name f.parameters.length args.length), st1)
    else
      let n0 := (st1.CLOSURES f.id).env.length
      let r := Func.logic evalFn f args st1
      let st3 :=
        if reboundOwnSlot r.1 f.id then r.2
        else r.2.setClosure f.id
          ((r.2.CLOSURES f.id).endScope ((r.2.CLOSURES f.id).env.length - n0))
      (r.1, st3)

/-- A body evaluator is scope-balanced for closure `fid` when every single
evaluation leaves the active environment's binding count and the binding
count of registry entry `fid` unchanged — the guaranteed-unwind discipline
the spec imposes on every nested evaluation (§4.3, §7), on success and on
propagated failure alike. -/
def ScopeBalanced (fid : String) (evalFn : EvalFn) : Prop :=
  ∀ e st, ((evalFn e st).2.ENV.env.length = st.ENV.env.length) ∧
    (((evalFn e st).2.CLOSURES fid).env.length = ((st.CLOSURES fid)).env.length)

theorem evlist_balanced (fid : String) (evalFn : EvalFn) (hB : ScopeBalanced fid evalFn)
    (es : List Val) (st : State) :
    ((evlist evalFn es st).2.ENV.env.length = st.ENV.env.length) ∧
    (((evlist evalFn es st).2.CLOSURES fid).env.length = (st.CLOSURES fid).env.length) := by
  induction es generalizing st with
  | nil => exact ⟨rfl, rfl⟩
  | cons e es ih =>
    obtain ⟨h1e, h1c⟩ := hB e st
    rcases hv : evalFn e st with ⟨v, st1⟩
    rw [hv] at h1e h1c
    dsimp only at h1e h1c
    cases v with
    | ok vv =>
      obtain ⟨h2e, h2c⟩ := ih st1
      rcases hw : evlist evalFn es st1 with ⟨vs, st2⟩
      rw [hw] at h2e h2c
      dsimp only at h2e h2c
      cases vs with
      | ok vs' => simp only [evlist, hv, hw]; exact ⟨by omega, by omega⟩
      | error err => simp only [evlist, hv, hw]; exact ⟨by omega, by omega⟩
    | error err =>
      simp only [evlist, hv]
      exact ⟨h1e, h1c⟩

theorem evalOptArgs_balanced (fid : String) (evalFn : EvalFn) (hB : ScopeBalanced fid evalFn)
    (argsOpt : Option (List Val)) (st : State) :
    ((evalOptArgs evalFn argsOpt st).2.ENV.env.length = st.ENV.env.length) ∧
    (((evalOptArgs evalFn argsOpt st).2.CLOSURES fid).env.length
      = (st.CLOSURES fid).env.length) := by
  cases argsOpt with
  | none => exact ⟨rfl, rfl⟩
  | some as => exact evlist_balanced fid evalFn hB as st

/-- The closure environment as it stands when the body evaluation starts:
the pre-call bindings, the parameter bindings, and the `self` binding for
the kinds that receive one. -/
def Func.enteredClosure (f : Func) (args : List Val) (st : State) : Environment :=
  ⟨(st.CLOSURES f.id).env ++ f.parameters.zip args ++
    (if f.kind.bindsSelf then [("self", f.selfRef)] else [])⟩

/-- The state in which the body evaluation starts. -/
def Func.enterState (f : Func) (args : List Val) (st : State) : State :=
  { ENV := st.ENV.extend (f.enteredClosure args st),
    CLOSURES := fun k => if k = f.id then f.enteredClosure args st else st.CLOSURES k,
    GLOBALS := st.GLOBALS }

theorem callEnter_ok (f : Func) (args : List Val) (st : State)
    (h : f.parameters.length = args.length) :
    f.callEnter args st = .ok (f.enterState args st) := by
  simp only [Func.callEnter, Environment.matchArguments, h, ne_eq, not_true_eq_false,
    if_false, State.setClosure]
  cases hb : f.kind.bindsSelf with
  | false =>
    simp only [hb, Bool.false_eq_true, if_false, Func.enterState, Func.enteredClosure, hb]
    refine congrArg Except.ok ?_
    refine congrArg₂ (fun a b => State.mk a b st.GLOBALS) ?_ ?_
    · simp [Environment.extend]
    · funext k
      by_cases hk : k = f.id <;> simp [hk]
  | true =>
    simp only [hb, if_true, Func.enterState, Func.enteredClosure, hb, Environment.define]
    refine congrArg Except.ok ?_
    refine congrArg₂ (fun a b => State.mk a b st.GLOBALS) ?_ ?_
    · simp [Environment.extend]
    · funext k
      by_cases hk : k = f.id <;> simp [hk]

theorem enteredClosure_length (f : Func) (args : List Val) (st : State)
    (h : f.parameters.length = args.length) :
    (f.enteredClosure args st).env.length
      = (st.CLOSURES f.id).env.length + args.length
        + (if f.kind.bindsSelf then 1 else 0) := by
  cases hb : f.kind.bindsSelf <;>
    simp [Func.enteredClosure, hb, h, Nat.add_assoc]

theorem retClone_ENV (f : Func) (v : Except Err Val) (st : State) :
    (f.retClone v st).ENV = st.ENV := by
  cases v with
  | error e => rfl
  | ok vv => cases vv <;> rfl

theorem retClone_GLOBALS (f : Func) (v : Except Err Val) (st : State) :
    (f.retClone v st).GLOBALS = st.GLOBALS := by
  cases v with
  | error e => rfl
  | ok vv => cases vv <;> rfl

theorem retClone_closure_self_length (f : Func) (v : Except Err Val) (st : State) :
    ((f.retClone v st).CLOSURES f.id).env.length = (st.CLOSURES f.id).env.length := by
  cases v with
  | error e => rfl
  | ok vv =>
    cases vv with
    | func gid k n p b =>
      by_cases hg : f.id = gid <;>
        simp [Func.retClone, State.setClosure, Environment.clone, hg]
    | none => rfl
    | int n => rfl
    | float l => rfl
    | bool b => rfl
    | str s => rfl
    | list l => rfl
    | inst i n2 => rfl
    | excClass => rfl

theorem callExit_ENV_length (f : Func) (st : State) :
    (f.callExit st).ENV.env.length
      = st.ENV.env.length - (st.CLOSURES f.id).env.length := by
  cases hb : f.kind.bindsSelf <;>
    simp [Func.callExit, hb, Environment.endScope, State.setClosure]

theorem logic_frame (evalFn : EvalFn) (f : Func) (args : List Val) (st : State)
    (hB : ScopeBalanced f.id evalFn) (h : f.parameters.length = args.length) :
    (Func.logic evalFn f args st).2.ENV.env.length = st.ENV.env.length := by
  have hE := callEnter_ok f args st h
  rcases hr : evalFn f.body (f.enterState args st) with ⟨v, st4⟩
  obtain ⟨hbe, hbc⟩ := hB f.body (f.enterState args st)
  rw [hr] at hbe hbc
  dsimp only at hbe hbc
  have hEl : (f.enterState args st).ENV.env.length
      = st.ENV.env.length + (f.enteredClosure args st).env.length := by
    simp [Func.enterState, Environment.extend]
  have hCl : ((f.enterState args st).CLOSURES f.id).env.length
      = (f.enteredClosure args st).env.length := by
    simp [Func.enterState]
  simp only [Func.logic, hE, hr]
  rw [callExit_ENV_length]
  rw [show (f.retClone v st4).ENV = st4.ENV from retClone_ENV f v st4,
    retClone_closure_self_length]
  omega

/-- C1: for every Function call, on every exit path — normal return,
propagated argument-evaluation failure, arity failure, or an error raised
while evaluating the body — the active Environment's binding count after
the call equals its binding count before the call, provided every nested
evaluation step is itself scope-balanced (the guaranteed-unwind discipline
of §4.3/§7). -/
theorem funcCall_preserves_binding_count (evalFn : EvalFn) (f : Func)
    (argsOpt : Option (List Val)) (st : State) (hB : ScopeBalanced f.id evalFn) :
    (Func.eval evalFn f argsOpt st).2.ENV.env.length = st.ENV.env.length := by
  obtain ⟨hae, hac⟩ := evalOptArgs_balanced f.id evalFn hB argsOpt st
  rcases ha : evalOptArgs evalFn argsOpt st with ⟨res, st1⟩
  rw [ha] at hae hac
  dsimp only at hae hac
  cases res with
  | error e => simp only [Func.eval, ha]; exact hae
  | ok args =>
    by_cases hlen : f.parameters.length = args.length
    · rcases hlo : Func.logic evalFn f args st1 with ⟨v, st2⟩
      have hfr := logic_frame evalFn f args st1 hB hlen
      rw [hlo] at hfr
      dsimp only at hfr
      simp only [Func.eval, ha, hlo, if_neg (not_ne_iff.mpr hlen)]
      cases hrb : reboundOwnSlot v f.id with
      | true => simp only [hrb, if_true]; omega
      | false =>
        simp only [Bool.false_eq_true, if_false, State.setClosure]
        omega
    · simp only [Func.eval, ha, if_pos hlen]
      exact hae

/-- Witness for C1: a concrete call of a one-parameter function under the
literal evaluator, starting from the empty state. -/
theorem funcCall_preserves_binding_count_witness :
    (Func.eval (fun e st => (.ok e, st))
      ⟨"F", FKind.function, "f", ["x"], Val.int 0⟩
      (some [Val.int 5])
      ⟨⟨[]⟩, fun _ => ⟨[]⟩, fun _ => Option.none⟩).2.ENV.env.length
    = (⟨⟨[]⟩, fun _ => ⟨[]⟩, fun _ => Option.none⟩ : State).ENV.env.length :=
  funcCall_preserves_binding_count (fun e st => (.ok e, st))
    ⟨"F", FKind.function, "f", ["x"], Val.int 0⟩
    (some [Val.int 5])
    ⟨⟨[]⟩, fun _ => ⟨[]⟩, fun _ => Option.none⟩
    (fun _ _ => ⟨rfl, rfl⟩)

theorem setClosure_same (st : State) (id : String) (e : Environment) :
    (st.setClosure id e).CLOSURES id = e := by
  simp [State.setClosure]

theorem setClosure_other (st : State) (id k : String) (e : Environment) (h : k ≠ id) :
    (st.setClosure id e).CLOSURES k = st.CLOSURES k := by
  simp [State.setClosure, h]

theorem callExit_closure_other (f : Func) (st : State) (k : String) (h : k ≠ f.id) :
    (f.callExit st).CLOSURES k = st.CLOSURES k := by
  cases hb : f.kind.bindsSelf <;> simp [Func.callExit, hb, State.setClosure, h]

theorem retClone_entry (f : Func) (gid : String) (gk : FKind) (gn : String)
    (gp : List String) (gb : Val) (st : State) :
    (f.retClone (.ok (.func gid gk gn gp gb)) st).CLOSURES gid
      = (st.CLOSURES f.id).clone := by
  simp [Func.retClone, State.setClosure]

/-- C2: when the number of evaluated arguments differs from the declared
parameter count, the call fails with the arity error naming the function
and the expected and actual counts, and the resulting state is exactly the
state after argument evaluation — no parameter binding, no `self` binding
and no extension of the active environment has happened before the
failure. -/
theorem funcCall_arity_check (evalFn : EvalFn) (f : Func) (as : List Val)
    (st st1 : State) (args : List Val)
    (h : evlist evalFn as st = (.ok args, st1))
    (hn : f.parameters.length ≠ args.length) :
    Func.eval evalFn f (some as) st
      = (.error (.arityErr f.name f.parameters.length args.length), st1) := by
  simp only [Func.eval, evalOptArgs, h, if_pos hn]

/-- Witness for C2: calling a one-parameter function with two arguments
under the literal evaluator fails with the arity error and leaves the
state untouched. -/
theorem funcCall_arity_check_witness :
    Func.eval (fun e st => (.ok e, st))
      ⟨"F", FKind.function, "f", ["x"], Val.int 0⟩
      (some [Val.int 1, Val.int 2]) ⟨⟨[]⟩, fun _ => ⟨[]⟩, fun _ => Option.none⟩
    = (.error (.arityErr "f" 1 2), ⟨⟨[]⟩, fun _ => ⟨[]⟩, fun _ => Option.none⟩) :=
  funcCall_arity_check (fun e st => (.ok e, st))
    ⟨"F", FKind.function, "f", ["x"], Val.int 0⟩
    [Val.int 1, Val.int 2] ⟨⟨[]⟩, fun _ => ⟨[]⟩, fun _ => Option.none⟩
    ⟨⟨[]⟩, fun _ => ⟨[]⟩, fun _ => Option.none⟩ [Val.int 1, Val.int 2] rfl (by decide)

/-- C3: when the body of a call evaluates to a Function value, the closure
registry entry for that value's identifier is replaced by a clone of the
calling function's closure environment as it stands at that moment (with
the bindings added for the call), and — for a returned function other than
the caller itself — that entry survives the unwind untouched, so calling
the returned function after the outer call has completed still sees the
variables captured at its point of creation. -/
theorem funcCall_returned_function_closure (evalFn : EvalFn) (f : Func)
    (argsOpt : Option (List Val)) (st st1 st4 : State) (args : List Val)
    (gid : String) (gk : FKind) (gn : String) (gp : List String) (gb : Val)
    (hA : evalOptArgs evalFn argsOpt st = (.ok args, st1))
    (hlen : f.parameters.length = args.length)
    (hr : evalFn f.body (f.enterState args st1) = (.ok (.func gid gk gn gp gb), st4))
    (hne : gid ≠ f.id) :
    (Func.eval evalFn f argsOpt st).1 = .ok (.func gid gk gn gp gb) ∧
    (Func.eval evalFn f argsOpt st).2.CLOSURES gid = (st4.CLOSURES f.id).clone := by
  have hrb : reboundOwnSlot (.ok (.func gid gk gn gp gb)) f.id = false := by
    simp [reboundOwnSlot, hne]
  simp only [Func.eval, hA, if_neg (not_ne_iff.mpr hlen), Func.logic,
    callEnter_ok f args st1 hlen, hr, hrb, Bool.false_eq_true, if_false]
  refine ⟨trivial, ?_⟩
  rw [setClosure_other _ _ _ _ hne, callExit_closure_other f _ gid hne,
    retClone_entry]

/-- Witness for C3: a zero-parameter function whose body is a literal
function value with a different identifier; after the call the returned
function's registry entry equals the caller's (empty) closure
environment. -/
theorem funcCall_returned_function_closure_witness :
    (Func.eval (fun e st => (.ok e, st))
        ⟨"F", FKind.function, "f", [], Val.func "G" FKind.function "g" [] (Val.int 0)⟩
        Option.none ⟨⟨[]⟩, fun _ => ⟨[]⟩, fun _ => Option.none⟩).1
      = .ok (Val.func "G" FKind.function "g" [] (Val.int 0)) ∧
    (Func.eval (fun e st => (.ok e, st))
        ⟨"F", FKind.function, "f", [], Val.func "G" FKind.function "g" [] (Val.int 0)⟩
        Option.none ⟨⟨[]⟩, fun _ => ⟨[]⟩, fun _ => Option.none⟩).2.CLOSURES "G"
      = ⟨[]⟩ := by
  have h := funcCall_returned_function_closure (fun e st => (.ok e, st))
    ⟨"F", FKind.function, "f", [], Val.func "G" FKind.function "g" [] (Val.int 0)⟩
    Option.none ⟨⟨[]⟩, fun _ => ⟨[]⟩, fun _ => Option.none⟩
    ⟨⟨[]⟩, fun _ => ⟨[]⟩, fun _ => Option.none⟩ _ []
    "G" FKind.function "g" [] (Val.int 0) rfl rfl rfl (by decide)
  exact ⟨h.1, h.2.trans rfl⟩

/-- The name sequence of an environment's bindings. -/
def Environment.names (e : Environment) : List String := e.env.map Prod.fst

theorem names_length (e : Environment) : e.names.length = e.env.length := by
  simp [Environment.names]

/-- A body evaluator is name-preserving for closure `fid` when every single
evaluation keeps the name sequences of the active environment and of
registry entry `fid` unchanged: nested evaluation may overwrite binding
values (assignment) but enters and leaves scopes in a balanced way
(§4.3, §7). -/
def NamePreserving (fid : String) (evalFn : EvalFn) : Prop :=
  ∀ e st, ((evalFn e st).2.ENV.names = st.ENV.names) ∧
    (((evalFn e st).2.CLOSURES fid).names = (st.CLOSURES fid).names)

theorem namePreserving_balanced (fid : String) (evalFn : EvalFn)
    (hN : NamePreserving fid evalFn) : ScopeBalanced fid evalFn := by
  intro e st
  obtain ⟨h1, h2⟩ := hN e st
  constructor
  · rw [← names_length, ← names_length, h1]
  · rw [← names_length, ← names_length, h2]

theorem evlist_namePreserving (fid : String) (evalFn : EvalFn)
    (hN : NamePreserving fid evalFn) (es : List Val) (st : State) :
    ((evlist evalFn es st).2.ENV.names = st.ENV.names) ∧
    (((evlist evalFn es st).2.CLOSURES fid).names = (st.CLOSURES fid).names) := by
  induction es generalizing st with
  | nil => exact ⟨rfl, rfl⟩
  | cons e es ih =>
    obtain ⟨h1e, h1c⟩ := hN e st
    rcases hv : evalFn e st with ⟨v, st1⟩
    rw [hv] at h1e h1c
    dsimp only at h1e h1c
    cases v with
    | ok vv =>
      obtain ⟨h2e, h2c⟩ := ih st1
      rcases hw : evlist evalFn es st1 with ⟨vs, st2⟩
      rw [hw] at h2e h2c
      dsimp only at h2e h2c
      cases vs with
      | ok vs2 => simp only [evlist, hv, hw]; exact ⟨h2e.trans h1e, h2c.trans h1c⟩
      | error err => simp only [evlist, hv, hw]; exact ⟨h2e.trans h1e, h2c.trans h1c⟩
    | error err => simp only [evlist, hv]; exact ⟨h1e, h1c⟩

theorem evalOptArgs_namePreserving (fid : String) (evalFn : EvalFn)
    (hN : NamePreserving fid evalFn) (argsOpt : Option (List Val)) (st : State) :
    ((evalOptArgs evalFn argsOpt st).2.ENV.names = st.ENV.names) ∧
    (((evalOptArgs evalFn argsOpt st).2.CLOSURES fid).names
      = (st.CLOSURES fid).names) := by
  cases argsOpt with
  | none => exact ⟨rfl, rfl⟩
  | some as => exact evlist_namePreserving fid evalFn hN as st

theorem lookup_define (e : Environment) (n : String) (v : Val) :
    (e.define n v).lookup n = some v := by
  simp [Environment.lookup, Environment.define, List.reverse_append, List.find?]

theorem names_enteredClosure (f : Func) (args : List Val) (st : State)
    (h : f.parameters.length = args.length) :
    (f.enteredClosure args st).names
      = (st.CLOSURES f.id).names ++ f.parameters
        ++ (if f.kind.bindsSelf then ["self"] else []) := by
  cases hb : f.kind.bindsSelf <;>
    simp [Func.enteredClosure, Environment.names, hb,
      List.map_fst_zip f.parameters args h.le]

theorem retClone_closure_self (f : Func) (v : Except Err Val) (st : State) :
    (f.retClone v st).CLOSURES f.id = st.CLOSURES f.id := by
  cases v with
  | error e => rfl
  | ok vv =>
    cases vv with
    | func gid k n p b =>
      by_cases hg : f.id = gid <;>
        simp [Func.retClone, State.setClosure, Environment.clone, hg]
    | none => rfl
    | int n => rfl
    | float l => rfl
    | bool b => rfl
    | str s => rfl
    | list l => rfl
    | inst i n2 => rfl
    | excClass => rfl

theorem callExit_ENV_names (f : Func) (s : State) :
    (f.callExit s).ENV.names
      = s.ENV.names.take (s.ENV.names.length - (s.CLOSURES f.id).env.length) := by
  cases hb : f.kind.bindsSelf <;>
    simp [Func.callExit, hb, State.setClosure, Environment.endScope,
      Environment.names, List.map_take]

theorem eraseP_last_self (l : List (String × Val)) (A : List String)
    (h : l.map Prod.fst = A ++ ["self"]) :
    ((l.reverse.eraseP (fun b => b.1 == "self")).reverse).map Prod.fst = A := by
  have hne : l ≠ [] := by
    intro h0
    rw [h0] at h
    simp at h
  obtain ⟨m, b, rfl⟩ : ∃ m b, l = m ++ [b] := by
    refine ⟨l.dropLast, l.getLast hne, ?_⟩
    exact (List.dropLast_append_getLast hne).symm
  rw [List.map_append] at h
  obtain ⟨hm, hb1⟩ := List.append_inj' h (by simp)
  have hbs : b.1 = "self" := by simpa using hb1
  simp [List.reverse_append, List.eraseP_cons, hbs, hm]

theorem names_delete_self (e : Environment) (A : List String)
    (h : e.names = A ++ ["self"]) : (e.delete "self").names = A :=
  eraseP_last_self e.env A h

theorem logic_result (evalFn : EvalFn) (f : Func) (args : List Val) (st : State)
    (hlen : f.parameters.length = args.length) (v : Except Err Val) (st4 : State)
    (hr : evalFn f.body (f.enterState args st) = (v, st4)) :
    Func.logic evalFn f args st = (v, f.callExit (f.retClone v st4)) := by
  simp only [Func.logic, callEnter_ok f args st hlen, hr]

theorem eval_result (evalFn : EvalFn) (f : Func) (argsOpt : Option (List Val))
    (st st1 : State) (args : List Val) (v : Except Err Val) (st4 : State)
    (hA : evalOptArgs evalFn argsOpt st = (.ok args, st1))
    (hlen : f.parameters.length = args.length)
    (hr : evalFn f.body (f.enterState args st1) = (v, st4)) :
    Func.eval evalFn f argsOpt st =
      (v,
        if reboundOwnSlot v f.id then f.callExit (f.retClone v st4)
        else (f.callExit (f.retClone v st4)).setClosure f.id
          (((f.callExit (f.retClone v st4)).CLOSURES f.id).endScope
            (((f.callExit (f.retClone v st4)).CLOSURES f.id).env.length
              - (st1.CLOSURES f.id).env.length))) := by
  simp only [Func.eval, hA, if_neg (not_ne_iff.mpr hlen),
    logic_result evalFn f args st1 hlen v st4 hr]

theorem setClosure_ENV (st : State) (id : String) (e : Environment) :
    (st.setClosure id e).ENV = st.ENV := rfl

/-- C4: for kinds `lambda` and `self`, every call binds the name `self` in
the function's closure environment — and, through the scope extension, as
the most recent binding of the active environment — to the function's own
parameter list and body before the body is evaluated; on every exit the
binding is removed again: after the call, `self` is unbound in the
enclosing scope (given it was not bound there before the call) and the
closure environment's `self` binding count is back at its pre-call value.
Kinds `function` and `method` never bind `self`: their entered closure
environment is exactly the previous bindings plus the parameter
bindings. -/
theorem funcCall_self_lifecycle (evalFn : EvalFn) (f : Func)
    (argsOpt : Option (List Val)) (st st1 : State) (args : List Val)
    (hN : NamePreserving f.id evalFn)
    (hA : evalOptArgs evalFn argsOpt st = (.ok args, st1))
    (hlen : f.parameters.length = args.length)
    (hself_env : "self" ∉ st.ENV.names)
    (hself_par : "self" ∉ f.parameters) :
    (f.kind.bindsSelf = true →
      ((f.enterState args st1).CLOSURES f.id).lookup "self" = some f.selfRef ∧
      ((f.enterState args st1).CLOSURES f.id).env.getLast? = some ("self", f.selfRef) ∧
      (f.enterState args st1).ENV.env.getLast? = some ("self", f.selfRef)) ∧
    (f.kind.bindsSelf = false →
      ((f.enterState args st1).CLOSURES f.id).env
        = (st1.CLOSURES f.id).env ++ f.parameters.zip args) ∧
    (Func.eval evalFn f argsOpt st).2.ENV.names = st.ENV.names ∧
    "self" ∉ (Func.eval evalFn f argsOpt st).2.ENV.names ∧
    ((Func.eval evalFn f argsOpt st).2.CLOSURES f.id).names.count "self"
      = (st.CLOSURES f.id).names.count "self" := by
  obtain ⟨hA1, hA2⟩ := evalOptArgs_namePreserving f.id evalFn hN argsOpt st
  rw [hA] at hA1 hA2
  dsimp only at hA1 hA2
  rcases hr : evalFn f.body (f.enterState args st1) with ⟨v, st4⟩
  obtain ⟨hb1, hb2⟩ := hN f.body (f.enterState args st1)
  rw [hr] at hb1 hb2
  dsimp only at hb1 hb2
  have heval := eval_result evalFn f argsOpt st st1 args v st4 hA hlen hr
  have hstE_env : (f.enterState args st1).ENV.names
      = st1.ENV.names ++ (f.enteredClosure args st1).names := by
    simp [Func.enterState, Environment.extend, Environment.names]
  have hstE_cl : ((f.enterState args st1).CLOSURES f.id).names
      = (f.enteredClosure args st1).names := by
    simp [Func.enterState, Environment.names]
  have hecn := names_enteredClosure f args st1 hlen
  have hS_env : (f.retClone v st4).ENV = st4.ENV := retClone_ENV f v st4
  have hS_cl : (f.retClone v st4).CLOSURES f.id = st4.CLOSURES f.id :=
    retClone_closure_self f v st4
  have hlen4 : (st4.CLOSURES f.id).env.length
      = (f.enteredClosure args st1).names.length := by
    rw [← names_length, hb2, hstE_cl]
  have hE_env : (f.callExit (f.retClone v st4)).ENV.names = st1.ENV.names := by
    rw [callExit_ENV_names, hS_env, hS_cl, hb1, hstE_env, hlen4,
      List.length_append, Nat.add_sub_cancel, List.take_left]
  have hE_cl : ((f.callExit (f.retClone v st4)).CLOSURES f.id).names
      = (st1.CLOSURES f.id).names ++ f.parameters := by
    cases hbk : f.kind.bindsSelf with
    | false =>
      have hsame : (f.callExit (f.retClone v st4)).CLOSURES f.id
          = st4.CLOSURES f.id := by
        simp [Func.callExit, hbk, hS_cl]
      rw [hsame, hb2, hstE_cl, hecn, hbk]
      simp
    | true =>
      have hdel : (f.callExit (f.retClone v st4)).CLOSURES f.id
          = (st4.CLOSURES f.id).delete "self" := by
        simp [Func.callExit, hbk, State.setClosure, hS_cl]
      rw [hdel]
      apply names_delete_self
      rw [hb2, hstE_cl, hecn, hbk]
      simp
  refine ⟨?_, ?_, ?_, ?_, ?_⟩
  · intro hb
    have hcl : (f.enterState args st1).CLOSURES f.id
        = Environment.define "self" f.selfRef
            ⟨(st1.CLOSURES f.id).env ++ f.parameters.zip args⟩ := by
      simp [Func.enterState, Func.enteredClosure, hb, Environment.define]
    refine ⟨?_, ?_, ?_⟩
    · rw [hcl]; exact lookup_define _ _ _
    · rw [hcl]; simp [Environment.define]
    · have henv : (f.enterState args st1).ENV.env
          = st1.ENV.env ++ ((st1.CLOSURES f.id).env ++ f.parameters.zip args
              ++ [("self", f.selfRef)]) := by
        simp [Func.enterState, Environment.extend, Func.enteredClosure, hb]
      rw [henv]
      simp
  · intro hb
    simp [Func.enterState, Func.enteredClosure, hb]
  · rw [heval]
    dsimp only
    cases hrb : reboundOwnSlot v f.id with
    | true => simp only [hrb, if_true]; rw [hE_env, hA1]
    | false =>
      simp only [hrb, Bool.false_eq_true, if_false, setClosure_ENV]
      rw [hE_env, hA1]
  · rw [heval]
    dsimp only
    cases hrb : reboundOwnSlot v f.id with
    | true =>
      simp only [hrb, if_true]
      rw [hE_env, hA1]
      exact hself_env
    | false =>
      simp only [hrb, Bool.false_eq_true, if_false, setClosure_ENV]
      rw [hE_env, hA1]
      exact hself_env
  · rw [heval]
    dsimp only
    have hcount : ((st1.CLOSURES f.id).names ++ f.parameters).count "self"
        = (st.CLOSURES f.id).names.count "self" := by
      rw [List.count_append, hA2]
      have hz : f.parameters.count "self" = 0 := by
        simp [List.count_eq_zero, hself_par]
      omega
    cases hrb : reboundOwnSlot v f.id with
    | true =>
      simp only [hrb, if_true]
      rw [hE_cl]
      exact hcount
    | false =>
      simp only [hrb, Bool.false_eq_true, if_false, setClosure_same]
      have names_endScope2 : ∀ (e : Environment) (n : Nat),
          (e.endScope n).names = e.names.take (e.env.length - n) := by
        intro e n
        simp [Environment.endScope, Environment.names, List.map_take]
      rw [names_endScope2]
      have hElen : ((f.callExit (f.retClone v st4)).CLOSURES f.id).env.length
          = (st1.CLOSURES f.id).names.length + f.parameters.length := by
        rw [← names_length, hE_cl, List.length_append]
      have harith : ((f.callExit (f.retClone v st4)).CLOSURES f.id).env.length
          - (((f.callExit (f.retClone v st4)).CLOSURES f.id).env.length
            - (st1.CLOSURES f.id).env.length)
          = (st1.CLOSURES f.id).names.length := by
        rw [hElen, ← names_length]
        omega
      rw [harith, hE_cl, List.take_left, hA2]

/-- Witness for C4: a zero-parameter lambda called under the literal
evaluator from the empty state: afterwards `self` is unbound in the active
environment and absent from the closure entry, and at body entry the closure
entry binds `self` to the lambda's own parameter list and body. -/
theorem funcCall_self_lifecycle_witness :
    "self" ∉ (Func.eval (fun e st => (.ok e, st))
      ⟨"F", FKind.lambda, "lam", [], Val.int 1⟩ Option.none
      ⟨⟨[]⟩, fun _ => ⟨[]⟩, fun _ => Option.none⟩).2.ENV.names ∧
    ((Func.eval (fun e st => (.ok e, st))
      ⟨"F", FKind.lambda, "lam", [], Val.int 1⟩ Option.none
      ⟨⟨[]⟩, fun _ => ⟨[]⟩, fun _ => Option.none⟩).2.CLOSURES "F").names.count "self"
      = 0 ∧
    ((Func.enterState ⟨"F", FKind.lambda, "lam", [], Val.int 1⟩ []
      ⟨⟨[]⟩, fun _ => ⟨[]⟩, fun _ => Option.none⟩).CLOSURES "F").lookup "self"
      = some (Func.selfRef ⟨"F", FKind.lambda, "lam", [], Val.int 1⟩) := by
  have h := funcCall_self_lifecycle (fun e st => (.ok e, st))
    ⟨"F", FKind.lambda, "lam", [], Val.int 1⟩ Option.none
    ⟨⟨[]⟩, fun _ => ⟨[]⟩, fun _ => Option.none⟩
    ⟨⟨[]⟩, fun _ => ⟨[]⟩, fun _ => Option.none⟩ []
    (fun _ _ => ⟨rfl, rfl⟩) rfl rfl (by simp [Environment.names]) (by simp)
  exact ⟨h.2.2.2.1, by rw [h.2.2.2.2]; rfl, (h.1 rfl).1⟩

/-- An OPAL `Template` object after construction (`datatypes.py:91`):
registry identifier, name, constructor parameter names, and the retained
`init` statement sequence when one was declared. -/
structure Templ where
  id : String
  name : String
  parameters : List String
  init : Option (List Val)

/-- The parameter-name list of a declared method: the source stores `e[2]`
(a list of name atoms) directly as `Function.parameters`. -/
def paramNames (ps : List Val) : List String :=
  ps.filterMap fun p => match p with | .str s => some s | _ => Option.none

/-- One step of the method comprehension at `datatypes.py:102` for the
entry `e` at position `i` of the body.  The tag test `e[0] == "func"`
raises a host `IndexError` on an empty list and a host `TypeError` on a
non-subscriptable value, while a string entry yields its first character,
which never equals `func`.  A `func`-tagged entry is passed to
`Function(*e[1:], isMethod=True)`: a bare name binds a method with empty
parameter list and body (the `or []` defaults of `Closable.__init__`), a
second and third element supply the parameter atom list and the body, and
four or more further elements make the constructor raise a host
`TypeError`.  A lone `func` tag raises the host `IndexError` of `e[1]`.
The supply `methodId` stands for the randomized identifier generation.
Entries whose declared name is not a string atom or whose parameter
position is a non-list value are outside the modelled domain (the source
accepts some of them, producing bindings no OPAL name can reach); the
claim theorem excludes them by hypothesis. -/
def funcScanStep (methodId : Nat → String) (i : Nat) (e : Val) :
    Except Err (Option (String × Val)) :=
  match e with
  | .list [] => .error .hostIndexErr
  | .list (.str "func" :: rest) =>
    match rest with
    | [] => .error .hostIndexErr
    | [.str nm] => .ok (some (nm, .func (methodId i) .method nm [] (.list [])))
    | [.str nm, .list ps] =>
      .ok (some (nm, .func (methodId i) .method nm (paramNames ps) (.list [])))
    | [.str nm, .list ps, bd] =>
      .ok (some (nm, .func (methodId i) .method nm (paramNames ps) bd))
    | _ :: _ :: _ :: _ :: _ =>
      .error (.hostTypeErr "Function takes from 2 to 5 positional arguments")
    | _ => .ok Option.none
  | .list (_ :: _) => .ok Option.none
  | .str _ => .ok Option.none
  | _ => .error (.hostTypeErr "not subscriptable")

/-- One step of the variable comprehension at `datatypes.py:103`.  The tag
test behaves as in `funcScanStep`; a `var`-tagged entry binds `e[1]` to
the unevaluated `e[2]`, raising the host `IndexError` when the entry is
too short for either index, and the host `TypeError` of an unhashable
dict key when the declared name is itself a list.  Entries with other
non-string names are outside the modelled domain; the claim theorem
excludes them by hypothesis. -/
def varScanStep (e : Val) : Except Err (Option (String × Val)) :=
  match e with
  | .list [] => .error .hostIndexErr
  | .list (.str "var" :: rest) =>
    match rest with
    | [] => .error .hostIndexErr
    | [_] => .error .hostIndexErr
    | .str nm :: ini :: _ => .ok (some (nm, ini))
    | .list _ :: _ :: _ => .error (.hostTypeErr "unhashable type")
    | _ => .ok Option.none
  | .list (_ :: _) => .ok Option.none
  | .str _ => .ok Option.none
  | _ => .error (.hostTypeErr "not subscriptable")

/-- The method comprehension of `datatypes.py:102` over the enumerated
body: each accepted entry constructs a `Function`, whose `Closable`
constructor installs a fresh empty registry entry; a raising entry
propagates, keeping the registry entries created so far.  The pairs are
collected in body order; the dict deduplication is applied by
`Template.construct`. -/
def methodsScan (methodId : Nat → String) :
    List (Nat × Val) → State → Except Err (List (String × Val)) × State
  | [], st => (.ok [], st)
  | ie :: rest, st =>
    match funcScanStep methodId ie.1 ie.2 with
    | .error e => (.error e, st)
    | .ok Option.none => methodsScan methodId rest st
    | .ok (some p) =>
      let st1 :=
        match p.2 with
        | .func fid _ _ _ _ => st.setClosure fid ⟨[]⟩
        | _ => st
      match methodsScan methodId rest st1 with
      | (.ok t, st2) => (.ok (p :: t), st2)
      | (.error e, st2) => (.error e, st2)

/-- The variable comprehension of `datatypes.py:103` over the body; it has
no registry side effects. -/
def varsScan : List Val → Except Err (List (String × Val))
  | [] => .ok []
  | e :: rest =>
    match varScanStep e with
    | .error er => .error er
    | .ok Option.none => varsScan rest
    | .ok (some p) =>
      match varsScan rest with
      | .ok t => .ok (p :: t)
      | .error er => .error er

/-- Insertion into a Python dict: a duplicate key keeps its original
position and takes the newest value; a fresh key is appended. -/
def dictInsert (d : List (String × Val)) (k : String) (v : Val) :
    List (String × Val) :=
  if d.any (fun b => b.1 == k) then d.map (fun b => if b.1 == k then (k, v) else b)
  else d ++ [(k, v)]

/-- The insertion-ordered Python dict built from the scanned pairs, as the
dict comprehensions of `datatypes.py:102`-`103` build theirs: duplicate
declared names collapse to a single binding holding the latest value. -/
def dictOfList (l : List (String × Val)) : List (String × Val) :=
  l.foldl (fun d kv => dictInsert d kv.1 kv.2) []

/-- The pairs the method comprehension accepts, in body order, before the
dict deduplication (derived from `funcScanStep`, so it cannot diverge from
the fallible scan). -/
def funcDecl (methodId : Nat → String) (ie : Nat × Val) : Option (String × Val) :=
  match funcScanStep methodId ie.1 ie.2 with
  | .ok (some p) => some p
  | _ => Option.none

/-- The accepted method pairs of a whole body, in order. -/
def methodDecls (methodId : Nat → String) (body : List Val) : List (String × Val) :=
  body.enum.filterMap (funcDecl methodId)

/-- The pairs the variable comprehension accepts (derived from
`varScanStep`). -/
def varDecl (e : Val) : Option (String × Val) :=
  match varScanStep e with
  | .ok (some p) => some p
  | _ => Option.none

/-- The accepted variable pairs of a whole body, in order. -/
def varDecls (body : List Val) : List (String × Val) :=
  body.filterMap varDecl

/-- Whether a body entry is tagged `init` (`method[0] == "init"` at
`datatypes.py:107`). -/
def isInitEntry : Val → Bool
  | .list (.str "init" :: _) => true
  | _ => false

/-- The entry without its tag (`method[1:]` at `datatypes.py:108`). -/
def initRest : Val → List Val
  | .list (_ :: rest) => rest
  | _ => []

/-- The init extraction loop of `datatypes.py:106`-`109`: the first entry
tagged `init` is retained, without its tag, and scanning stops there. -/
def scanInit : List Val → Option (List Val)
  | [] => Option.none
  | e :: es => if isInitEntry e then some (initRest e) else scanInit es

/-- Translation of `Template.__init__` (`datatypes.py:94`-`115`): create
the template's registry entry, run the method comprehension (constructing
the method Functions and their registry entries, then deduplicating the
dict by declared name), run the variable comprehension likewise, extract
the init sequence, and store first the variables dict and then the
methods dict in the template's closure environment via `match_arguments`.
An error raised by either comprehension propagates, keeping the registry
entries created up to that point. -/
def Template.construct (tid : String) (name : String) (parameters : List String)
    (body : List Val) (methodId : Nat → String) (st : State) :
    Except Err Templ × State :=
  let st1 := st.setClosure tid ⟨[]⟩
  match methodsScan methodId body.enum st1 with
  | (.error e, st2) => (.error e, st2)
  | (.ok rawMs, st2) =>
    match varsScan body with
    | .error e => (.error e, st2)
    | .ok rawVs =>
      let st3 := st2.setClosure tid
        ⟨(st2.CLOSURES tid).env ++ dictOfList rawVs ++ dictOfList rawMs⟩
      (.ok ⟨tid, name, parameters, scanInit body⟩, st3)

/-- Translation of `Instance.__init__` (`datatypes.py:139`-`145`): create
the instance's registry entry (`Closable.__init__`), then match the
constructor parameters to the arguments inside it.  `newId` stands for the
randomly generated identifier. -/
def Instance.construct (newId : String) (parameters : List String) (args : List Val)
    (st : State) : Except Err Unit × State :=
  let st1 := st.setClosure newId ⟨[]⟩
  match (st1.CLOSURES newId).matchArguments parameters args with
  | .error e => (.error e, st1)
  | .ok env2 => (.ok (), st1.setClosure newId env2)

/-- Modelled from the spec: `runClosed` of `environment.py` (not under
`src/`) activates a borrowed closure environment as the current scope,
runs the given computation, and deactivates the borrowed scope on exit
regardless of outcome (§4.4); mutations of the active scope made while it
is borrowed persist in the registry entry, since in the source both names
refer to the same Environment object. -/
def runClosed {α : Type} (borrowedId : String) (fn : State → Except Err α × State)
    (st : State) : Except Err α × State :=
  let saved := st.ENV
  let r := fn { st with ENV := st.CLOSURES borrowedId }
  (r.1, { ENV := saved,
          CLOSURES := fun k => if k = borrowedId then r.2.ENV else r.2.CLOSURES k,
          GLOBALS := r.2.GLOBALS })

/-- Translation of `Template.new` (`datatypes.py:118`-`132`): construct an
Instance (which binds the constructor parameters in its fresh registry
entry), append the template's bindings onto the instance's bindings
(`env +=`), and — only when an `init` sequence was recorded — evaluate its
statements in order (`kw.evlist`) with the instance's closure environment
as the active scope.  The init values are discarded; the instance is
returned. -/
def Template.new (evalFn : EvalFn) (t : Templ) (args : List Val) (newId : String)
    (st : State) : Except Err Val × State :=
  match Instance.construct newId t.parameters args st with
  | (.error e, st1) => (.error e, st1)
  | (.ok _, st1) =>
    let st2 := st1.setClosure newId
      ⟨(st1.CLOSURES newId).env ++ (st1.CLOSURES t.id).env⟩
    match t.init with
    | Option.none => (.ok (.inst newId t.name), st2)
    | some initSeq =>
      match runClosed newId (fun s => evlist evalFn initSeq s) st2 with
      | (.ok _, st3) => (.ok (.inst newId t.name), st3)
      | (.error e, st3) => (.error e, st3)

/-- Modelled from the spec's words for claim C5 (§3, Instance): the
instance's closure environment "starts as a copy of the template's closure
environment's bindings at the moment of instantiation, then its
constructor parameters are bound" — the claimed construction order, kept
for comparison with `Template.new`, which the source drives the other way
around. -/
def Template.newSpecOrder (t : Templ) (args : List Val) (newId : String)
    (st : State) : State :=
  let st1 := st.setClosure newId ⟨(st.CLOSURES t.id).env⟩
  st1.setClosure newId ⟨(st1.CLOSURES newId).env ++ t.parameters.zip args⟩

theorem stateExt (s1 s2 : State) (h1 : s1.ENV = s2.ENV)
    (h2 : ∀ k, s1.CLOSURES k = s2.CLOSURES k) (h3 : s1.GLOBALS = s2.GLOBALS) :
    s1 = s2 := by
  cases s1
  cases s2
  simp only [State.mk.injEq]
  exact ⟨h1, funext h2, h3⟩

theorem setClosure_idem (st : State) (id : String) (a b : Environment) :
    (st.setClosure id a).setClosure id b = st.setClosure id b := by
  refine stateExt _ _ rfl (fun k => ?_) rfl
  by_cases hk : k = id <;> simp [State.setClosure, hk]

theorem instanceConstruct_ok (newId : String) (params : List String) (args : List Val)
    (st : State) (hlen : params.length = args.length) :
    Instance.construct newId params args st
      = (.ok (), st.setClosure newId ⟨params.zip args⟩) := by
  simp only [Instance.construct, Environment.matchArguments, setClosure_same,
    if_neg (not_ne_iff.mpr hlen), List.nil_append, setClosure_idem]

theorem templateNew_noInit (evalFn : EvalFn) (t : Templ) (args : List Val)
    (newId : String) (st : State)
    (hlen : t.parameters.length = args.length) (hid : newId ≠ t.id)
    (hinit : t.init = Option.none) :
    Template.new evalFn t args newId st
      = (.ok (.inst newId t.name),
         st.setClosure newId ⟨t.parameters.zip args ++ (st.CLOSURES t.id).env⟩) := by
  simp only [Template.new, instanceConstruct_ok newId t.parameters args st hlen, hinit]
  rw [setClosure_same, setClosure_other _ _ _ _ (Ne.symm hid), setClosure_idem]

theorem templateNew_init (evalFn : EvalFn) (t : Templ) (args : List Val)
    (newId : String) (st : State) (initSeq : List Val)
    (hlen : t.parameters.length = args.length) (hid : newId ≠ t.id)
    (hinit : t.init = some initSeq) :
    (Template.new evalFn t args newId st).2.ENV = st.ENV ∧
    (Template.new evalFn t args newId st).2.CLOSURES newId
      = (evlist evalFn initSeq
          { State.setClosure newId ⟨t.parameters.zip args ++ (st.CLOSURES t.id).env⟩ st
            with ENV := ⟨t.parameters.zip args ++ (st.CLOSURES t.id).env⟩ }).2.ENV := by
  simp only [Template.new, instanceConstruct_ok newId t.parameters args st hlen, hinit]
  rw [setClosure_same, setClosure_other _ _ _ _ (Ne.symm hid), setClosure_idem]
  simp only [runClosed, setClosure_same]
  rcases hev : evlist evalFn initSeq
      { State.setClosure newId ⟨t.parameters.zip args ++ (st.CLOSURES t.id).env⟩ st
        with ENV := ⟨t.parameters.zip args ++ (st.CLOSURES t.id).env⟩ } with ⟨rv, st3⟩
  cases rv with
  | ok v => exact ⟨rfl, by simp⟩
  | error e => exact ⟨rfl, by simp⟩

/-- The state used by the concrete C5 instantiations: empty active
environment, a template entry `T` holding the variable binding
`x = 1`, and an otherwise empty registry. -/
def exStC5 : State :=
  ⟨⟨[]⟩, fun k => if k = "T" then ⟨[("x", Val.int 1)]⟩ else ⟨[]⟩, fun _ => Option.none⟩

/-- Counterexample for C5: with a template variable and a constructor
parameter sharing the name `x`, the source binds the parameter first and
then appends the template's bindings (`Instance.__init__` before
`env +=`), so the template binding is the more recent one and shadows the
parameter — a lookup of `x` on the new instance yields the template's
initializer `1`, not the argument `2` that the claimed order (copy first,
then bind parameters) would give, and the resulting binding sequences
differ. -/
theorem template_new_order_counterexample :
    ((Template.new (fun e st => (.ok e, st)) ⟨"T", "Counter", ["x"], Option.none⟩
        [Val.int 2] "I" exStC5).2.CLOSURES "I").lookup "x" = some (Val.int 1) ∧
    ((Template.newSpecOrder ⟨"T", "Counter", ["x"], Option.none⟩ [Val.int 2] "I"
        exStC5).CLOSURES "I").lookup "x" = some (Val.int 2) ∧
    ((Template.new (fun e st => (.ok e, st)) ⟨"T", "Counter", ["x"], Option.none⟩
        [Val.int 2] "I" exStC5).2.CLOSURES "I").env
      ≠ ((Template.newSpecOrder ⟨"T", "Counter", ["x"], Option.none⟩ [Val.int 2] "I"
        exStC5).CLOSURES "I").env := by
  refine ⟨by rfl, by rfl, ?_⟩
  show ¬ ([("x", Val.int 2), ("x", Val.int 1)] : List (String × Val))
      = [("x", Val.int 1), ("x", Val.int 2)]
  simp

/-- C5 as amended: `Template.new(args)` gives the new Instance a closure
environment consisting of the constructor parameter bindings followed by a
snapshot copy of the template's bindings at the moment of instantiation
(so on a name collision the template binding, being more recent, shadows
the parameter); only when the template recorded an init sequence, that
sequence is evaluated by `evlist` (statements in order) with the
instance's closure environment as the active scope, and the active
environment is restored afterwards; the snapshot is independent: a later
update of the template's registry entry does not change the instance's
entry, and updating any other entry (for example a second instance's)
leaves this instance's entry unchanged. -/
theorem template_new_amended (evalFn : EvalFn) (t : Templ) (args : List Val)
    (newId : String) (st : State)
    (hlen : t.parameters.length = args.length) (hid : newId ≠ t.id) :
    (t.init = Option.none →
      Template.new evalFn t args newId st
        = (.ok (.inst newId t.name),
           st.setClosure newId ⟨t.parameters.zip args ++ (st.CLOSURES t.id).env⟩)) ∧
    (∀ initSeq, t.init = some initSeq →
      (Template.new evalFn t args newId st).2.ENV = st.ENV ∧
      (Template.new evalFn t args newId st).2.CLOSURES newId
        = (evlist evalFn initSeq
            { State.setClosure newId ⟨t.parameters.zip args ++ (st.CLOSURES t.id).env⟩ st
              with ENV := ⟨t.parameters.zip args ++ (st.CLOSURES t.id).env⟩ }).2.ENV) ∧
    (∀ e : Environment,
      ((Template.new evalFn t args newId st).2.setClosure t.id e).CLOSURES newId
        = (Template.new evalFn t args newId st).2.CLOSURES newId) ∧
    (∀ (id2 : String) (e : Environment), id2 ≠ newId →
      ((Template.new evalFn t args newId st).2.setClosure id2 e).CLOSURES newId
        = (Template.new evalFn t args newId st).2.CLOSURES newId) := by
  refine ⟨fun hinit => templateNew_noInit evalFn t args newId st hlen hid hinit,
    fun initSeq hinit => templateNew_init evalFn t args newId st initSeq hlen hid hinit,
    fun e => setClosure_other _ _ _ _ hid,
    fun id2 e h2 => setClosure_other _ _ _ _ (Ne.symm h2)⟩

/-- Witness for C5: instantiating the one-parameter template `T` (variable
`x = 1`) with argument `2` under fresh identifier `I` produces the
parameter binding followed by the template snapshot, and a later update of
the template's entry leaves the instance's entry unchanged. -/
theorem template_new_amended_witness :
    Template.new (fun e st => (.ok e, st)) ⟨"T", "Counter", ["x"], Option.none⟩
      [Val.int 2] "I" exStC5
      = (.ok (.inst "I" "Counter"),
         exStC5.setClosure "I" ⟨[("x", Val.int 2), ("x", Val.int 1)]⟩) ∧
    (((Template.new (fun e st => (.ok e, st)) ⟨"T", "Counter", ["x"], Option.none⟩
        [Val.int 2] "I" exStC5).2.setClosure "T" ⟨[]⟩).CLOSURES "I")
      = ((Template.new (fun e st => (.ok e, st)) ⟨"T", "Counter", ["x"], Option.none⟩
        [Val.int 2] "I" exStC5).2.CLOSURES "I") := by
  have h := template_new_amended (fun e st => (.ok e, st))
    ⟨"T", "Counter", ["x"], Option.none⟩ [Val.int 2] "I" exStC5 rfl (by decide)
  exact ⟨(h.1 rfl).trans rfl, h.2.2.1 ⟨[]⟩⟩

theorem scanInit_cons_not (e : Val) (es : List Val) (h : isInitEntry e = false) :
    scanInit (e :: es) = scanInit es := by
  simp [scanInit, h]

theorem scanInit_no_init (body : List Val) (h : ∀ e ∈ body, isInitEntry e = false) :
    scanInit body = Option.none := by
  induction body with
  | nil => rfl
  | cons e es ih =>
    rw [scanInit_cons_not e es (h e (List.mem_cons_self _ _))]
    exact ih (fun e2 hm => h e2 (List.mem_cons_of_mem e hm))

theorem scanInit_first (pre : List Val) (rest : List Val) (post : List Val)
    (h : ∀ e ∈ pre, isInitEntry e = false) :
    scanInit (pre ++ (.list (.str "init" :: rest)) :: post) = some rest := by
  induction pre with
  | nil => simp [scanInit, isInitEntry, initRest]
  | cons e es ih =>
    rw [List.cons_append, scanInit_cons_not e _ (h e (List.mem_cons_self _ _))]
    exact ih (fun e2 hm => h e2 (List.mem_cons_of_mem e hm))

/-- A body entry in one of the declared shapes of the modelled domain: a
method declaration with a string name and optional parameter-list and
body positions, a variable declaration with a string name and an
initializer, or an init entry. -/
def DeclShape (e : Val) : Prop :=
  (∃ nm, e = Val.list [.str "func", .str nm]) ∨
  (∃ nm ps, e = Val.list [.str "func", .str nm, .list ps]) ∨
  (∃ nm ps bd, e = Val.list [.str "func", .str nm, .list ps, bd]) ∨
  (∃ nm ini more, e = Val.list (.str "var" :: .str nm :: ini :: more)) ∨
  (∃ rest, e = Val.list (.str "init" :: rest))

theorem funcScanStep_of_shape (methodId : Nat → String) (i : Nat) (e : Val)
    (h : DeclShape e) :
    funcScanStep methodId i e = .ok (funcDecl methodId (i, e)) := by
  rcases h with ⟨nm, rfl⟩ | ⟨nm, ps, rfl⟩ | ⟨nm, ps, bd, rfl⟩
    | ⟨nm, ini, more, rfl⟩ | ⟨rest, rfl⟩ <;> rfl

theorem varScanStep_of_shape (e : Val) (h : DeclShape e) :
    varScanStep e = .ok (varDecl e) := by
  rcases h with ⟨nm, rfl⟩ | ⟨nm, ps, rfl⟩ | ⟨nm, ps, bd, rfl⟩
    | ⟨nm, ini, more, rfl⟩ | ⟨rest, rfl⟩ <;> rfl

theorem varsScan_of_shape (body : List Val) (h : ∀ e ∈ body, DeclShape e) :
    varsScan body = .ok (varDecls body) := by
  induction body with
  | nil => rfl
  | cons e rest ih =>
    have hstep := varScanStep_of_shape e (h e (List.mem_cons_self _ _))
    have ihr := ih (fun x hx => h x (List.mem_cons_of_mem e hx))
    cases hd : varDecl e with
    | none => simp only [varsScan, hstep, hd, ihr, varDecls, List.filterMap_cons]
    | some p => simp only [varsScan, hstep, hd, ihr, varDecls, List.filterMap_cons]

theorem methodsScan_of_shape (methodId : Nat → String) (tid : String)
    (hfresh : ∀ i, methodId i ≠ tid) (body : List Val)
    (h : ∀ e ∈ body, DeclShape e) :
    ∀ (n : Nat) (st : State), ∃ st2,
      methodsScan methodId (body.enumFrom n) st
        = (.ok ((body.enumFrom n).filterMap (funcDecl methodId)), st2)
      ∧ st2.CLOSURES tid = st.CLOSURES tid := by
  induction body with
  | nil => intro n st; exact ⟨st, rfl, rfl⟩
  | cons e rest ih =>
    intro n st
    have hstep := funcScanStep_of_shape methodId n e (h e (List.mem_cons_self _ _))
    have ihr := ih (fun x hx => h x (List.mem_cons_of_mem e hx))
    cases hd : funcDecl methodId (n, e) with
    | none =>
      obtain ⟨st2, hrun, hcl⟩ := ihr (n + 1) st
      refine ⟨st2, ?_, hcl⟩
      simp only [List.enumFrom_cons, methodsScan, hstep, hd, hrun, List.filterMap_cons]
    | some p =>
      have hfid : ∃ nm P B, p = (nm, Val.func (methodId n) FKind.method nm P B) := by
        rcases h e (List.mem_cons_self _ _) with ⟨nm, he⟩ | ⟨nm, ps, he⟩
          | ⟨nm, ps, bd, he⟩ | ⟨nm, ini, more, he⟩ | ⟨rest2, he⟩ <;>
          subst he <;>
          first
          | exact ⟨nm, _, _, by
              rw [show funcDecl methodId (n, Val.list [Val.str "func", Val.str nm])
                  = some (nm, Val.func (methodId n) FKind.method nm [] (Val.list []))
                from rfl] at hd
              exact (Option.some.inj hd).symm⟩
          | exact ⟨nm, _, _, by
              rw [show funcDecl methodId
                    (n, Val.list [Val.str "func", Val.str nm, Val.list ps])
                  = some (nm, Val.func (methodId n) FKind.method nm (paramNames ps)
                      (Val.list []))
                from rfl] at hd
              exact (Option.some.inj hd).symm⟩
          | exact ⟨nm, _, _, by
              rw [show funcDecl methodId
                    (n, Val.list [Val.str "func", Val.str nm, Val.list ps, bd])
                  = some (nm, Val.func (methodId n) FKind.method nm (paramNames ps) bd)
                from rfl] at hd
              exact (Option.some.inj hd).symm⟩
          | exact Option.noConfusion hd
      obtain ⟨nm, P, B, rfl⟩ := hfid
      obtain ⟨st2, hrun, hcl⟩ := ihr (n + 1) (st.setClosure (methodId n) ⟨[]⟩)
      refine ⟨st2, ?_, ?_⟩
      · simp only [List.enumFrom_cons, methodsScan, hstep, hd, hrun, List.filterMap_cons]
      · rw [hcl, setClosure_other _ _ _ _ (Ne.symm (hfresh n))]

theorem dictInsert_fresh (d : List (String × Val)) (k : String) (v : Val)
    (h : k ∉ d.map Prod.fst) : dictInsert d k v = d ++ [(k, v)] := by
  have hany : d.any (fun b => b.1 == k) = false := by
    rw [List.any_eq_false]
    intro b hb he
    exact h ((eq_of_beq he) ▸ List.mem_map_of_mem Prod.fst hb)
  simp [dictInsert, hany]

theorem dictOfList_foldl_nodup (l : List (String × Val)) :
    ∀ d : List (String × Val), ((d ++ l).map Prod.fst).Nodup →
      l.foldl (fun d2 kv => dictInsert d2 kv.1 kv.2) d = d ++ l := by
  induction l with
  | nil => intro d _; simp
  | cons kv rest ih =>
    intro d h
    have hmap : ((d ++ kv :: rest).map Prod.fst)
        = d.map Prod.fst ++ kv.1 :: rest.map Prod.fst := by simp
    have hk : kv.1 ∉ d.map Prod.fst := by
      intro hmem
      rw [hmap] at h
      exact (List.nodup_append.mp h).2.2 hmem (List.mem_cons_self _ _)
    have hins : dictInsert d kv.1 kv.2 = d ++ [kv] := dictInsert_fresh d kv.1 kv.2 hk
    have h2 : (((d ++ [kv]) ++ rest).map Prod.fst).Nodup := by
      have heq : (d ++ [kv]) ++ rest = d ++ kv :: rest := by simp
      rw [heq]
      exact h
    rw [List.foldl_cons, hins, ih (d ++ [kv]) h2]
    simp

theorem dictOfList_nodup (l : List (String × Val)) (h : (l.map Prod.fst).Nodup) :
    dictOfList l = l := by
  have := dictOfList_foldl_nodup l [] (by simpa using h)
  simpa [dictOfList] using this

theorem dictOfList_dup_pair (k : String) (v1 v2 : Val) :
    dictOfList [(k, v1), (k, v2)] = [(k, v2)] := by
  simp [dictOfList, dictInsert]

theorem construct_run (tid name : String) (parameters : List String)
    (body : List Val) (methodId : Nat → String) (st : State)
    (hfresh : ∀ i, methodId i ≠ tid) (hshape : ∀ e ∈ body, DeclShape e) :
    ∃ st2 : State, Template.construct tid name parameters body methodId st
        = (.ok ⟨tid, name, parameters, scanInit body⟩,
           st2.setClosure tid ⟨(st2.CLOSURES tid).env
             ++ dictOfList (varDecls body) ++ dictOfList (methodDecls methodId body)⟩)
      ∧ st2.CLOSURES tid = ⟨[]⟩ := by
  obtain ⟨st2, hms, hcl⟩ := methodsScan_of_shape methodId tid hfresh body hshape 0
    (st.setClosure tid ⟨[]⟩)
  have hms2 : methodsScan methodId body.enum (st.setClosure tid ⟨[]⟩)
      = (.ok (methodDecls methodId body), st2) := hms
  refine ⟨st2, ?_, ?_⟩
  · simp only [Template.construct, hms2, varsScan_of_shape body hshape]
  · rw [hcl, setClosure_same]

/-- C6: at Template construction the template's closure environment holds
exactly the variable bindings followed by the method bindings, each under
its declared name (so nothing is stored for an `init` entry): a
`func`-tagged entry becomes a Function of kind `method` — a full
declaration keeps its parameter atoms and body, while 2- and 3-element
declarations receive the constructor's empty defaults; a `var`-tagged
entry becomes a binding holding its unevaluated initializer, and one that
is too short for `e[2]` raises a host `IndexError` instead of
constructing; an `init`-tagged entry yields nothing in either scan; the
source's dicts collapse a duplicated declared name to a single binding
holding the latest value (the distinct-names hypotheses make the stored
dicts coincide with the declaration lists); the retained init sequence is
the first `init`-tagged entry without its tag — scanning stops there — and
is empty when no entry is tagged `init`.  The identifier-supply hypothesis
keeps the randomly generated method identifiers distinct from the
template's own. -/
theorem template_construct_scan (tid name : String) (parameters : List String)
    (body : List Val) (methodId : Nat → String) (st : State)
    (hfresh : ∀ i, methodId i ≠ tid)
    (hshape : ∀ e ∈ body, DeclShape e)
    (hnodupV : ((varDecls body).map Prod.fst).Nodup)
    (hnodupF : ((methodDecls methodId body).map Prod.fst).Nodup) :
    (Template.construct tid name parameters body methodId st).1
      = .ok ⟨tid, name, parameters, scanInit body⟩ ∧
    ((Template.construct tid name parameters body methodId st).2.CLOSURES tid).env
      = varDecls body ++ methodDecls methodId body ∧
    ((Template.construct tid name parameters body methodId st).2.CLOSURES
        tid).env.length
      = (varDecls body).length + (methodDecls methodId body).length ∧
    (∀ (nm : String) (ini : Val) (more : List Val),
      varScanStep (.list (.str "var" :: .str nm :: ini :: more))
        = .ok (some (nm, ini))) ∧
    (∀ (i : Nat) (nm : String) (ps : List Val) (bd : Val),
      funcScanStep methodId i (.list [.str "func", .str nm, .list ps, bd])
        = .ok (some (nm, Val.func (methodId i) FKind.method nm (paramNames ps) bd))) ∧
    (∀ (i : Nat) (nm : String),
      funcScanStep methodId i (.list [.str "func", .str nm])
        = .ok (some (nm, Val.func (methodId i) FKind.method nm [] (Val.list [])))) ∧
    (∀ (i : Nat) (nm : String) (ps : List Val),
      funcScanStep methodId i (.list [.str "func", .str nm, .list ps])
        = .ok (some (nm, Val.func (methodId i) FKind.method nm (paramNames ps)
            (Val.list [])))) ∧
    (∀ nm : String, varScanStep (.list [.str "var", .str nm])
      = .error .hostIndexErr) ∧
    varScanStep (.list [.str "var"]) = .error .hostIndexErr ∧
    (∀ (i : Nat) (rest : List Val),
      funcScanStep methodId i (.list (.str "init" :: rest)) = .ok Option.none) ∧
    (∀ rest : List Val,
      varScanStep (.list (.str "init" :: rest)) = .ok Option.none) ∧
    (∀ (k : String) (v1 v2 : Val), dictOfList [(k, v1), (k, v2)] = [(k, v2)]) ∧
    (∀ (pre rest post : List Val), (∀ e ∈ pre, isInitEntry e = false) →
      body = pre ++ (.list (.str "init" :: rest)) :: post →
      (Template.construct tid name parameters body methodId st).1
        = .ok ⟨tid, name, parameters, some rest⟩) ∧
    ((∀ e ∈ body, isInitEntry e = false) →
      (Template.construct tid name parameters body methodId st).1
        = .ok ⟨tid, name, parameters, Option.none⟩) := by
  obtain ⟨st2, hrun, hcl⟩ :=
    construct_run tid name parameters body methodId st hfresh hshape
  refine ⟨by rw [hrun], ?_, ?_, fun nm ini more => rfl, fun i nm ps bd => rfl,
    fun i nm => rfl, fun i nm ps => rfl, fun nm => rfl, rfl,
    fun i rest => rfl, fun rest => rfl, dictOfList_dup_pair, ?_, ?_⟩
  · rw [hrun]
    dsimp only
    rw [setClosure_same, hcl, dictOfList_nodup _ hnodupV, dictOfList_nodup _ hnodupF]
    simp
  · rw [hrun]
    dsimp only
    rw [setClosure_same, hcl, dictOfList_nodup _ hnodupV, dictOfList_nodup _ hnodupF,
      List.length_append]
    simp
  · intro pre rest post hpre hbody
    rw [hrun, hbody, scanInit_first pre rest post hpre]
  · intro hno
    rw [hrun, scanInit_no_init body hno]

/-- Witness for C6: a concrete template body with one variable, one full
method declaration, one short method declaration (bound with the default
empty parameters and body), and two init entries: the closure entry holds
the variable binding then the two method bindings, and the retained init
sequence is the first init entry's statements. -/
theorem template_construct_scan_witness :
    ((Template.construct "T" "Counter" []
        [Val.list [Val.str "var", Val.str "x", Val.int 1],
         Val.list [Val.str "func", Val.str "inc", Val.list [Val.str "n"], Val.int 9],
         Val.list [Val.str "func", Val.str "zero"],
         Val.list [Val.str "init", Val.str "s1"],
         Val.list [Val.str "init", Val.str "s2"]]
        (fun i => if i = 2 then "M2" else "M1")
        ⟨⟨[]⟩, fun _ => ⟨[]⟩, fun _ => Option.none⟩).2.CLOSURES "T").env
      = [("x", Val.int 1),
         ("inc", Val.func "M1" FKind.method "inc" ["n"] (Val.int 9)),
         ("zero", Val.func "M2" FKind.method "zero" [] (Val.list []))] ∧
    (Template.construct "T" "Counter" []
        [Val.list [Val.str "var", Val.str "x", Val.int 1],
         Val.list [Val.str "func", Val.str "inc", Val.list [Val.str "n"], Val.int 9],
         Val.list [Val.str "func", Val.str "zero"],
         Val.list [Val.str "init", Val.str "s1"],
         Val.list [Val.str "init", Val.str "s2"]]
        (fun i => if i = 2 then "M2" else "M1")
        ⟨⟨[]⟩, fun _ => ⟨[]⟩, fun _ => Option.none⟩).1
      = .ok ⟨"T", "Counter", [], some [Val.str "s1"]⟩ := by
  have h := template_construct_scan "T" "Counter" []
    [Val.list [Val.str "var", Val.str "x", Val.int 1],
     Val.list [Val.str "func", Val.str "inc", Val.list [Val.str "n"], Val.int 9],
     Val.list [Val.str "func", Val.str "zero"],
     Val.list [Val.str "init", Val.str "s1"],
     Val.list [Val.str "init", Val.str "s2"]]
    (fun i => if i = 2 then "M2" else "M1")
    ⟨⟨[]⟩, fun _ => ⟨[]⟩, fun _ => Option.none⟩
    (fun i => by
      show (if i = 2 then "M2" else "M1") ≠ "T"
      by_cases h2 : i = 2
      · rw [if_pos h2]; decide
      · rw [if_neg h2]; decide)
    (by
      intro e he
      simp only [List.mem_cons, List.not_mem_nil, or_false] at he
      rcases he with rfl | rfl | rfl | rfl | rfl
      · exact Or.inr (Or.inr (Or.inr (Or.inl ⟨"x", Val.int 1, [], rfl⟩)))
      · exact Or.inr (Or.inr (Or.inl ⟨"inc", [Val.str "n"], Val.int 9, rfl⟩))
      · exact Or.inl ⟨"zero", rfl⟩
      · exact Or.inr (Or.inr (Or.inr (Or.inr ⟨[Val.str "s1"], rfl⟩)))
      · exact Or.inr (Or.inr (Or.inr (Or.inr ⟨[Val.str "s2"], rfl⟩))))
    (by decide) (by decide)
  refine ⟨h.2.1.trans rfl, ?_⟩
  exact (h.2.2.2.2.2.2.2.2.2.2.2.2.1
    [Val.list [Val.str "var", Val.str "x", Val.int 1],
     Val.list [Val.str "func", Val.str "inc", Val.list [Val.str "n"], Val.int 9],
     Val.list [Val.str "func", Val.str "zero"]]
    [Val.str "s1"]
    [Val.list [Val.str "init", Val.str "s2"]]
    (by
      intro e he
      simp only [List.mem_cons, List.not_mem_nil, or_false] at he
      rcases he with rfl | rfl | rfl <;> rfl)
    rfl)


/-- Translation of `keywords.globals` (`keywords.py:250`-`257`): with a
truthy `val` expression, evaluate it and assign the result to `var` in the
global store (the call returns Python `None`); with a falsy or absent
`val`, look `var` up in the global store and return its value, with the
`ValueError` class itself as the default for a name that was never
defined. -/
def globalsBuiltin (evalFn : EvalFn) (var : String) (val : Option Val) (st : State) :
    Except Err Val × State :=
  match val with
  | some v =>
    if pyTruthy v then
      match evalFn v st with
      | (.ok value, st1) =>
        (.ok Val.none,
         { st1 with GLOBALS := fun k => if k = var then some value else st1.GLOBALS k })
      | (.error e, st1) => (.error e, st1)
    else (.ok ((st.GLOBALS var).getD Val.excClass), st)
  | Option.none => (.ok ((st.GLOBALS var).getD Val.excClass), st)

/-- C9: a call of the `global` builtin whose value argument is falsy (for
example `0`, `#f`, or the empty list) performs no definition or update of
the global store and behaves as a read of the variable instead, and a read
of a name that was never defined raises no error: it returns the
`ValueError` class itself as the result value. -/
theorem globals_falsy_reads (evalFn : EvalFn) (var : String) (v : Val) (st : State)
    (h : pyTruthy v = false) :
    globalsBuiltin evalFn var (some v) st
      = (.ok ((st.GLOBALS var).getD Val.excClass), st) ∧
    (st.GLOBALS var = Option.none →
      globalsBuiltin evalFn var (some v) st = (.ok Val.excClass, st)) ∧
    pyTruthy (Val.int 0) = false ∧
    pyTruthy (Val.bool false) = false ∧
    pyTruthy (Val.list []) = false := by
  refine ⟨?_, ?_, rfl, rfl, rfl⟩
  · simp [globalsBuiltin, h]
  · intro h0
    simp [globalsBuiltin, h, h0]

/-- Witness for C9: reading the undefined name `x` with the falsy value
argument `0` leaves the state untouched and returns the `ValueError`
class. -/
theorem globals_falsy_reads_witness :
    globalsBuiltin (fun e st => (.ok e, st)) "x" (some (Val.int 0))
      ⟨⟨[]⟩, fun _ => ⟨[]⟩, fun _ => Option.none⟩
    = (.ok Val.excClass, ⟨⟨[]⟩, fun _ => ⟨[]⟩, fun _ => Option.none⟩) :=
  (globals_falsy_reads (fun e st => (.ok e, st)) "x" (Val.int 0)
    ⟨⟨[]⟩, fun _ => ⟨[]⟩, fun _ => Option.none⟩ rfl).2.1 rfl

/-- Python indexing `x[i]` as `cond` uses it: a list yields the element or
a host `IndexError`; a string yields the one-character string or a host
`IndexError`; any other value is not subscriptable, a host `TypeError`. -/
def valIndex (v : Val) (i : Nat) : Except Err Val :=
  match v with
  | .list l =>
    match l.get? i with
    | some x => .ok x
    | Option.none => .error .hostIndexErr
  | .str s =>
    match s.toList.get? i with
    | some c => .ok (.str (String.mk [c]))
    | Option.none => .error .hostIndexErr
  | _ => .error (.typeErr "getitem" v)

/-- Whether the evaluated head of a clause is the token `else`
(`expr[0][0] == "else"` at `keywords.py:169`). -/
def isElseTok : Val → Bool
  | .str s => s == "else"
  | _ => false

/-- Translation of `keywords.cond` (`keywords.py:165`-`169`): evaluate the
body of the first clause whose condition is `else` or evaluates truthy,
otherwise recurse on the remaining clauses.  The empty clause list indexes
`expr[0]` and raises the host `IndexError`. -/
def condForm (evalFn : EvalFn) : List Val → State → Except Err Val × State
  | [], st => (.error .hostIndexErr, st)
  | clause :: rest, st =>
    match valIndex clause 0 with
    | .error e => (.error e, st)
    | .ok c0 =>
      if isElseTok c0 then
        match valIndex clause 1 with
        | .error e => (.error e, st)
        | .ok b => evalFn b st
      else
        match evalFn c0 st with
        | (.error e, st1) => (.error e, st1)
        | (.ok cv, st1) =>
          if pyTruthy cv then
            match valIndex clause 1 with
            | .error e => (.error e, st1)
            | .ok b => evalFn b st1
          else condForm evalFn rest st1

/-- C10: when every clause's condition is distinct from `else` and always
evaluates to a falsy value, `cond` neither returns a value nor fails with
an error kind of the specified taxonomy: the recursion reaches the empty
clause list and raises a host-level `IndexError` from indexing the empty
sequence. -/
theorem cond_all_false_host_error (evalFn : EvalFn) (clauses : List Val)
    (h : ∀ cl ∈ clauses, ∃ c, valIndex cl 0 = .ok c ∧ isElseTok c = false ∧
      (∀ st, ∃ v st2, evalFn c st = (.ok v, st2) ∧ pyTruthy v = false)) :
    (∀ st, (condForm evalFn clauses st).1 = .error .hostIndexErr) ∧
    Err.inTaxonomy .hostIndexErr = false := by
  refine ⟨?_, rfl⟩
  induction clauses with
  | nil => intro st; rfl
  | cons cl rest ih =>
    intro st
    obtain ⟨c, hc0, hce, hev⟩ := h cl (List.mem_cons_self _ _)
    obtain ⟨v, st2, hvv, hvf⟩ := hev st
    simp only [condForm, hc0, hce, Bool.false_eq_true, if_false, hvv, hvf]
    exact ih (fun cl2 hm => h cl2 (List.mem_cons_of_mem cl hm)) st2

/-- Witness for C10: a single well-formed clause whose condition always
evaluates to `False` under a constant evaluator: `cond` ends in the host
`IndexError`. -/
theorem cond_all_false_host_error_witness :
    (condForm (fun _ st => (.ok (Val.bool false), st))
      [Val.list [Val.str "c", Val.str "b"]]
      ⟨⟨[]⟩, fun _ => ⟨[]⟩, fun _ => Option.none⟩).1 = .error .hostIndexErr := by
  have h := cond_all_false_host_error (fun _ st => (.ok (Val.bool false), st))
    [Val.list [Val.str "c", Val.str "b"]]
    (by
      intro cl hm
      simp only [List.mem_cons, List.not_mem_nil, or_false] at hm
      subst hm
      exact ⟨Val.str "c", rfl, rfl, fun st => ⟨Val.bool false, st, rfl, rfl⟩⟩)
  exact h.1 _
